import Mathlib

/-!
Verification development for the mmar HTTP tunnel.

This file gives a shallow embedding, in Lean 4, of the parts of the mmar
source that the verified properties talk about:

* the frame codec of `internal/protocol/main.go` (`serializeMessage`,
  `deserializeMessage`, `readMessageData`, `isValidTunnelMessageType`),
  with byte streams modelled as `List Nat` (each entry one byte) and the
  `bufio.Reader` modelled by explicit prefix consumption;
* the server-side helpers of `internal/server/utils.go` (`serializeRequest`,
  `handleCancel`, `respondWith`, `GenerateRandomID`, `GenerateRandomUint32`)
  and of the server main file (`isValidSubdomainName`,
  `GenerateUniqueSubdomain`, `TunnelLimitedIP`, `newClientTunnel`,
  `GenerateUniqueRequestID`), with the random sources passed in explicitly
  as streams and the unbounded Go retry loops given explicit fuel;
* the client forwarder classification of `internal/client/main.go`
  (`handleRequestMessage`), with the outcome of the local HTTP call
  abstracted into an explicit result type.

Go machine integers are modelled as `Nat` (with `% 2 ^ 32` where the Go
code uses `uint32`), Go strings of subdomain names as `List Char` (Go
iterates runes), and fallible Go functions return `Option`/`Except`.
-/

namespace Mmar

/-! ### Constants (src/constants/main.go) -/

def TUNNEL_MESSAGE_PROTOCOL_VERSION : Nat := 4

/-- The delimiter byte `'\n'`. -/
def TUNNEL_MESSAGE_DATA_DELIMITER : Nat := 10

def MAX_TUNNELS_PER_IP : Nat := 5

def MAX_REQ_BODY_SIZE : Nat := 10000000

def REQUEST_ID_BUFF_SIZE : Nat := 4

def ID_LENGTH : Nat := 6

/-- The generation charset `"abcdefghijklmnopqrstuvwxyz0123456789"` as runes. -/
def ID_CHARSET : List Char :=
  ['a', 'b', 'c', 'd', 'e', 'f', 'g', 'h', 'i', 'j', 'k', 'l', 'm',
   'n', 'o', 'p', 'q', 'r', 's', 't', 'u', 'v', 'w', 'x', 'y', 'z',
   '0', '1', '2', '3', '4', '5', '6', '7', '8', '9']

def CLIENT_DISCONNECT_ERR_TEXT : String :=
  "Tunnel is closed, cannot connect to mmar client."

def LOCALHOST_NOT_RUNNING_ERR_TEXT : String :=
  "Tunneled successfully, but nothing is running on localhost."

def DEST_REQUEST_TIMEDOUT_ERR_TEXT : String :=
  "Destination server took too long to respond"

def READ_BODY_CHUNK_ERR_TEXT : String :=
  "Error reading request body"

def READ_BODY_CHUNK_TIMEOUT_ERR_TEXT : String :=
  "Timeout reading request body"

def READ_RESP_BODY_ERR_TEXT : String :=
  "Could not read response from destination server, check your server's logs for any errors."

def MAX_REQ_BODY_SIZE_ERR_TEXT : String :=
  "Request too large"

def FAILED_TO_FORWARD_TO_MMAR_CLIENT_ERR_TEXT : String :=
  "Failed to forward request to mmar client"

def FAILED_TO_READ_RESP_FROM_MMAR_CLIENT_ERR_TEXT : String :=
  "Fail to read response from mmad client"

/-! ### Tunnel message types (src/internal/protocol/main.go)

The enumerated message kinds, `uint8(iota + 1)`, from `REQUEST` (first)
to `INVALID_RESP_FROM_DEST` (last). -/

def REQUEST : Nat := 1

def RESPONSE : Nat := 2

def CLIENT_CONNECT : Nat := 3

def CLIENT_RECLAIM_SUBDOMAIN : Nat := 4

def CLIENT_DISCONNECT : Nat := 5

def CLIENT_TUNNEL_LIMIT : Nat := 6

def LOCALHOST_NOT_RUNNING : Nat := 7

def DEST_REQUEST_TIMEDOUT : Nat := 8

def HEARTBEAT_FROM_CLIENT : Nat := 9

def HEARTBEAT_FROM_SERVER : Nat := 10

def HEARTBEAT_ACK : Nat := 11

def INVALID_RESP_FROM_DEST : Nat := 12

/-- One wire unit: a message type tag and the opaque payload bytes. -/
structure TunnelMessage where
  MsgType : Nat
  MsgData : List Nat
  deriving Repr, DecidableEq

/-- `isValidTunnelMessageType` iterates over the message kinds from first to
last and returns the matching one; this is equivalent to the range test
modelled here.  `none` models the `INVALID_MESSAGE_TYPE` error return. -/
def isValidTunnelMessageType (mt : Nat) : Option Nat :=
  if REQUEST ≤ mt ∧ mt ≤ INVALID_RESP_FROM_DEST then some mt else none

/-- The bytes of `strconv.Itoa n` for a non-negative `n`: the decimal digits
of `n`, most significant first, as ASCII codes.  (`serializeMessage` only
ever formats `len(tm.MsgData) ≥ 0`.) -/
def natDecimalBytes (n : Nat) : List Nat :=
  if n = 0 then [48] else (Nat.digits 10 n).reverse.map (fun d => d + 48)

/-- Errors a (de)serialization can produce.  `panicMakeNegative` stands for
the Go runtime panic raised by `make([]byte, length)` when the parsed
length is negative; like the error returns it produces no message. -/
inductive CodecError where
  | eofError
  | invalidMessageProtocolVersion
  | invalidMessageType
  | atoiError
  | panicMakeNegative
  deriving Repr, DecidableEq

/-- `serializeMessage`: validate the type, then emit
version byte ++ type byte ++ ASCII decimal payload length ++ `'\n'` ++ payload. -/
def serializeMessage (tm : TunnelMessage) : Except CodecError (List Nat) :=
  match isValidTunnelMessageType tm.MsgType with
  | none => .error .invalidMessageType
  | some msgType =>
      .ok ([TUNNEL_MESSAGE_PROTOCOL_VERSION, msgType]
            ++ natDecimalBytes tm.MsgData.length
            ++ [TUNNEL_MESSAGE_DATA_DELIMITER]
            ++ tm.MsgData)

/-- `bufio.Reader.ReadByte`: consume one byte, or fail at end of input. -/
def readByte : List Nat → Option (Nat × List Nat)
  | [] => none
  | b :: rest => some (b, rest)

/-- `bufio.Reader.ReadString(delim)`: consume up to and including the first
occurrence of `delim`, returning the consumed bytes (delimiter included)
and the remainder; fail (after consuming everything) if the delimiter never
occurs. -/
def readBytesUntilDelim (delim : Nat) : List Nat → Option (List Nat × List Nat)
  | [] => none
  | b :: rest =>
      if b = delim then some ([b], rest)
      else match readBytesUntilDelim delim rest with
        | none => none
        | some (taken, left) => some (b :: taken, left)

/-- Digit run of `strconv.Atoi`: fold ASCII decimal digits into a number,
failing on the first non-digit byte. -/
def decDigitsValAux (acc : Nat) : List Nat → Option Nat
  | [] => some acc
  | b :: rest =>
      if 48 ≤ b ∧ b ≤ 57 then decDigitsValAux (acc * 10 + (b - 48)) rest else none

/-- `strconv.Atoi` over the bytes of the length field: an optional sign
followed by at least one decimal digit.  (Go additionally reports a range
error for values that overflow the machine int; lengths that occur on a
well-formed frame are far below that bound, so the overflow path is not
modelled.) -/
def goAtoi (s : List Nat) : Option Int :=
  match s with
  | [] => none
  | b :: rest =>
      if b = 45 then
        match rest with
        | [] => none
        | _ => (decDigitsValAux 0 rest).map (fun n => -(n : Int))
      else if b = 43 then
        match rest with
        | [] => none
        | _ => (decDigitsValAux 0 rest).map (fun n => (n : Int))
      else (decDigitsValAux 0 s).map (fun n => (n : Int))

/-- `readMessageData`: `make([]byte, length)` followed by `io.ReadFull`.
A negative length makes the Go runtime panic in `make`; a too-short input
makes `io.ReadFull` fail after consuming what is there. -/
def readMessageData (length : Int) (input : List Nat) :
    Except CodecError (List Nat × List Nat) :=
  if length < 0 then .error .panicMakeNegative
  else if length.toNat ≤ input.length then
    .ok (input.take length.toNat, input.drop length.toNat)
  else .error .eofError

/-- Result of `deserializeMessage`: the error (if any), the message value
after the call (the Go method mutates its receiver), and the bytes left
unconsumed in the reader. -/
structure DeserializeResult where
  error : Option CodecError
  msg : TunnelMessage
  rest : List Nat
  deriving Repr, DecidableEq

/-- `deserializeMessage`: read the version byte and check it, read and
validate the type byte, read the ASCII length field up to `'\n'` and parse
it, read exactly that many payload bytes, and only then assign the
receiver's `MsgType` and `MsgData`.  On the paths where a read consumed an
unknown amount before failing, the unconsumed remainder is modelled as
`[]` (nothing of this connection's stream remains usable). -/
def deserializeMessage (tm : TunnelMessage) (input : List Nat) : DeserializeResult :=
  match readByte input with
  | none => ⟨some .eofError, tm, input⟩
  | some (msgProtocolVersion, r1) =>
      if msgProtocolVersion ≠ TUNNEL_MESSAGE_PROTOCOL_VERSION then
        ⟨some .invalidMessageProtocolVersion, tm, r1⟩
      else
        match readByte r1 with
        | none => ⟨some .eofError, tm, r1⟩
        | some (msgPrefixByte, r2) =>
            match isValidTunnelMessageType msgPrefixByte with
            | none => ⟨some .invalidMessageType, tm, r2⟩
            | some msgType =>
                match readBytesUntilDelim TUNNEL_MESSAGE_DATA_DELIMITER r2 with
                | none => ⟨some .eofError, tm, []⟩
                | some (msgLengthBytes, r3) =>
                    match goAtoi msgLengthBytes.dropLast with
                    | none => ⟨some .atoiError, tm, r3⟩
                    | some msgLength =>
                        match readMessageData msgLength r3 with
                        | .error e => ⟨some e, tm, []⟩
                        | .ok (msgData, r4) => ⟨none, ⟨msgType, msgData⟩, r4⟩

/-! ### Server helpers (src/internal/server/utils.go) -/

/-- `GenerateRandomUint32`: a random `uint32` read from `crypto/rand`.
The random source is passed in as the raw value `r`; the Go result is that
value reduced to 32 bits. -/
def GenerateRandomUint32 (r : Nat) : Nat :=
  r % 2 ^ 32

/-- `GenerateRandomID`: six random bytes from `crypto/rand`, each mapped to
`ID_CHARSET[b % len(ID_CHARSET)]`.  `rand i` is the `i`-th random byte; the
index is reduced `% 36`, so the `getD` default is never reached. -/
def GenerateRandomID (rand : Nat → Nat) : List Char :=
  (List.range ID_LENGTH).map (fun i => ID_CHARSET.getD (rand i % ID_CHARSET.length) 'a')

/-! ### Server tunnel manager (src/internal/server, main file) -/

/-- Subdomain names; Go iterates them as runes. -/
abbrev Subdomain := List Char

/-- Peer IPs, used only as registry keys. -/
abbrev PeerIP := List Char

/-- ASCII model of `strings.ToLower`, mapping `'A'..'Z'` to `'a'..'z'` and
leaving other characters unchanged.  Go lowercases all of Unicode, but a
name containing a character outside `[A-Za-z0-9-]` is rejected by the
character loop whatever its lowercase form is, so the two models give the
same validation verdict on every name. -/
def goToLowerChar (c : Char) : Char :=
  if 'A' ≤ c ∧ c ≤ 'Z' then Char.ofNat (c.toNat + 32) else c

/-- The characters admitted by the validation loop of `isValidSubdomainName`. -/
def isSubdomainChar (c : Char) : Bool :=
  ('a' ≤ c && c ≤ 'z') || ('A' ≤ c && c ≤ 'Z') || ('0' ≤ c && c ≤ '9') || c = '-'

/-- The reserved set of the validator: `{"admin", "stats", "www", "api", "app"}`. -/
def reservedSubdomainsValidation : List Subdomain :=
  [['a', 'd', 'm', 'i', 'n'], ['s', 't', 'a', 't', 's'], ['w', 'w', 'w'],
   ['a', 'p', 'i'], ['a', 'p', 'p']]

/-- The reserved set of the generator: `{"", "admin", "stats"}`. -/
def reservedSubdomainsGeneration : List Subdomain :=
  [[], ['a', 'd', 'm', 'i', 'n'], ['s', 't', 'a', 't', 's']]

/-- `isValidSubdomainName`, with the source's check order: empty, reserved
(on the lowercased name), length bounds, character loop, leading/trailing
hyphen.  (Go's length check counts bytes while this model counts runes;
the two disagree only on names with non-ASCII runes, which the character
loop rejects in either case, so every name gets the same verdict.) -/
def isValidSubdomainName (name : Subdomain) : Bool :=
  if name = [] then false
  else if reservedSubdomainsValidation.contains (name.map goToLowerChar) then false
  else if name.length < 1 || name.length > 63 then false
  else if !(name.all isSubdomainChar) then false
  else if name.head? = some '-' || name.getLast? = some '-' then false
  else true

/-- The retry loop of `GenerateUniqueSubdomain`.  In the Go for-clause
`for _, exists := ms.clients[generatedSubdomain]; exists || slices.Contains(reservedSubdomains, generatedSubdomain);`
the init statement runs exactly once, against the initial empty candidate,
and `exists` is never refreshed: only the reserved-set test is
re-evaluated on fresh draws, which are never compared with the bound
subdomains.  `exists0` is that once-computed lookup result; `stream k` is
the random-byte source of the `k`-th draw; `fuel` bounds the retries of
the (in Go, unbounded) loop. -/
def generateUniqueSubdomainLoop (exists0 : Bool) (stream : Nat → Nat → Nat) :
    Nat → Subdomain → Nat → Option Subdomain
  | fuel, generated, k =>
      if exists0 || reservedSubdomainsGeneration.contains generated then
        match fuel with
        | 0 => none
        | fuel' + 1 =>
            generateUniqueSubdomainLoop exists0 stream fuel' (GenerateRandomID (stream k)) (k + 1)
      else some generated

/-- `GenerateUniqueSubdomain`: compute the clients lookup of the initial
empty candidate (`generatedSubdomain := ""`) once, then run the retry loop
from that candidate. -/
def GenerateUniqueSubdomain (clients : List Subdomain) (stream : Nat → Nat → Nat)
    (fuel : Nat) : Option Subdomain :=
  generateUniqueSubdomainLoop (clients.contains []) stream fuel [] 0

/-- The retry loop of `GenerateUniqueRequestID`.  As with the subdomain
loop, the Go for-clause init `_, exists := ct.inflightRequests.Load(generatedReqId)`
runs exactly once, against the zero initial candidate, and `exists` is
never refreshed: the re-evaluated condition checks only the stale `exists`
and `generatedReqId == 0`, so fresh draws are never compared with the
inflight map and the first non-zero draw is returned even when it is an
inflight key.  `exists0` is that once-computed lookup result. -/
def generateUniqueRequestIDLoop (exists0 : Bool) (stream : Nat → Nat) :
    Nat → Nat → Nat → Option Nat
  | fuel, generatedReqId, k =>
      if exists0 || generatedReqId = 0 then
        match fuel with
        | 0 => none
        | fuel' + 1 =>
            generateUniqueRequestIDLoop exists0 stream fuel'
              (GenerateRandomUint32 (stream k)) (k + 1)
      else some generatedReqId

/-- `GenerateUniqueRequestID` over the tunnel's inflight keys `inflight`:
the inflight lookup happens once, for the zero initial candidate. -/
def GenerateUniqueRequestID (inflight : List Nat) (stream : Nat → Nat)
    (fuel : Nat) : Option Nat :=
  generateUniqueRequestIDLoop (inflight.contains 0) stream fuel 0 0

/-- The registry state of `MmarServer`: the keys of the `clients` map
(bound subdomains) and the `tunnelsPerIP` map. -/
structure MmarServerState where
  clients : List Subdomain
  tunnelsPerIP : List (PeerIP × List Subdomain)
  deriving Repr, DecidableEq

/-- Map read `ms.tunnelsPerIP[ip]` (first matching key). -/
def lookupIP (l : List (PeerIP × List Subdomain)) (ip : PeerIP) :
    Option (List Subdomain) :=
  match l with
  | [] => none
  | (k, v) :: rest => if k = ip then some v else lookupIP rest ip

/-- Map write `ms.tunnelsPerIP[ip] = v`: replace the first matching entry,
or append a new one. -/
def setIP (l : List (PeerIP × List Subdomain)) (ip : PeerIP)
    (v : List Subdomain) : List (PeerIP × List Subdomain) :=
  match l with
  | [] => [(ip, v)]
  | (k, w) :: rest => if k = ip then (ip, v) :: rest else (k, w) :: setIP rest ip v

/-- `TunnelLimitedIP`: read the IP's tunnel list (initialising a missing
entry to the empty list, a mutation of the registry) and report whether its
pre-read length has reached `MAX_TUNNELS_PER_IP`. -/
def TunnelLimitedIP (ms : MmarServerState) (ip : PeerIP) : Bool × MmarServerState :=
  match lookupIP ms.tunnelsPerIP ip with
  | some tunnels => (decide (tunnels.length ≥ MAX_TUNNELS_PER_IP), ms)
  | none => (false, { ms with tunnelsPerIP := setIP ms.tunnelsPerIP ip [] })

/-- The terminal outcome of one `newClientTunnel` call, named after the
message it sends to the client. -/
inductive CreateOutcome where
  | invalidSubdomainName
  | subdomainAlreadyTaken
  | clientTunnelLimit
  | tunnelCreated (id : Subdomain)
  deriving Repr, DecidableEq

/-- The tail of `newClientTunnel` once the subdomain `id` is settled: check
the per-IP limit; over the limit send `CLIENT_TUNNEL_LIMIT` and register
nothing, otherwise insert `id` into the clients map and append it to the
IP's tunnel list.  The clients insert `ms.clients[id] = clientTunnel` is
modelled as a cons; the embedding reads `clients` only through `contains`,
for which cons and map insert agree. -/
def finishCreate (ms : MmarServerState) (ip : PeerIP) (id : Subdomain) :
    CreateOutcome × MmarServerState :=
  match TunnelLimitedIP ms ip with
  | (true, ms1) => (.clientTunnelLimit, ms1)
  | (false, ms1) =>
      (.tunnelCreated id,
        { clients := id :: ms1.clients,
          tunnelsPerIP :=
            setIP ms1.tunnelsPerIP ip ((lookupIP ms1.tunnelsPerIP ip).getD [] ++ [id]) })

/-- `newClientTunnel`: for a non-empty requested name, validate it and check
it is free (each failure answers before touching the registry); for an
empty name, generate a fresh id; then run `finishCreate`.  `none` models
only generation-fuel exhaustion (the Go loop retries unboundedly). -/
def newClientTunnel (ms : MmarServerState) (ip : PeerIP) (subdomain : Subdomain)
    (stream : Nat → Nat → Nat) (fuel : Nat) :
    Option (CreateOutcome × MmarServerState) :=
  if subdomain ≠ [] then
    if !(isValidSubdomainName subdomain) then some (.invalidSubdomainName, ms)
    else if ms.clients.contains subdomain then some (.subdomainAlreadyTaken, ms)
    else some (finishCreate ms ip subdomain)
  else
    match GenerateUniqueSubdomain ms.clients stream fuel with
    | none => none
    | some generated => some (finishCreate ms ip generated)

/-- One tunnel-creation attempt: the peer IP, the requested name (empty for
auto-assign), and the random source and fuel of the generation loop. -/
structure CreateAttempt where
  ip : PeerIP
  subdomain : Subdomain
  stream : Nat → Nat → Nat
  fuel : Nat

/-- Run a sequence of creation attempts against the registry, keeping the
state a failed (fuel-exhausted) attempt leaves behind. -/
def runCreateAttempts (ms : MmarServerState) : List CreateAttempt → MmarServerState
  | [] => ms
  | a :: rest =>
      match newClientTunnel ms a.ip a.subdomain a.stream a.fuel with
      | none => runCreateAttempts ms rest
      | some (_, ms') => runCreateAttempts ms' rest

/-- The empty registry the server starts from. -/
def emptyServerState : MmarServerState := ⟨[], []⟩

/-- The per-IP cap invariant of the registry. -/
def perIPWithinLimit (ms : MmarServerState) : Prop :=
  ∀ ip, ((lookupIP ms.tunnelsPerIP ip).getD []).length ≤ MAX_TUNNELS_PER_IP

/-! ### Request serializer (src/internal/server/utils.go, serializeRequest) -/

/-- How one `r.Body.Read(buf)` call ended: more data may follow, the body
ended (`io.EOF`, possibly together with final bytes), or the read failed. -/
inductive BodyReadResult where
  | success
  | endOfFile
  | readFailure
  deriving Repr, DecidableEq

/-- The cancellation causes of the server's inflight requests
(the `*_ERR` error values of utils.go, plus the plain `context.Canceled`). -/
inductive CancelCause where
  | contextCanceled
  | readBodyChunkTimeout
  | readBodyChunk
  | clientDisconnected
  | readRespBody
  | maxReqBodySize
  | failedToForwardToMmarClient
  | failedToReadRespFromMmarClient
  deriving Repr, DecidableEq

/-- The read buffer size of `serializeRequest` (`bufferSize := 2048`). -/
def bufferSize : Nat := 2048

/-- The body-read loop of `serializeRequest` over the chunk outcomes the
body reader produces: add the chunk's size to `contentLength` and cancel
with `MAX_REQ_BODY_SIZE_ERR` once the accumulated count exceeds
`MAX_REQ_BODY_SIZE`; otherwise append the chunk and break on end of file,
cancel with `READ_BODY_CHUNK_ERR` on a failed read, or continue.  `none`
models a reader that blocks forever (the chunk list ran out without an end
or failure).  The result carries the final `contentLength` and the
accumulated `reqBodyBytes`. -/
def serializeRequestLoop :
    List (List Nat × BodyReadResult) → Nat → List Nat →
    Option (Except CancelCause (Nat × List Nat))
  | [], _, _ => none
  | (data, res) :: rest, contentLength, reqBodyBytes =>
      let cl := contentLength + data.length
      if cl > MAX_REQ_BODY_SIZE then some (.error .maxReqBodySize)
      else
        match res with
        | .endOfFile => some (.ok (cl, reqBodyBytes ++ data))
        | .readFailure => some (.error .readBodyChunk)
        | .success => serializeRequestLoop rest cl (reqBodyBytes ++ data)

/-- What `serializeRequest` sends on its channel, restricted to the fields
the body-read policy determines: the value the `Content-Length` header is
overwritten with, and the body bytes written after the headers.  The
request line, host and the remaining headers are copied into the buffer
unchanged and are carried opaquely by the caller. -/
structure SerializedRequest where
  contentLength : Nat
  bodyBytes : List Nat
  deriving Repr, DecidableEq

/-- `serializeRequest`, as the outcome of its body-read loop: either a
cancellation cause (and nothing is sent on the channel) or the serialized
request. -/
def serializeRequest (body : List (List Nat × BodyReadResult)) :
    Option (Except CancelCause SerializedRequest) :=
  (serializeRequestLoop body 0 []).map
    (fun r => r.map (fun p => ⟨p.1, p.2⟩))

/-- Total number of body bytes in a list of chunks. -/
def chunkLens (chunks : List (List Nat × BodyReadResult)) : Nat :=
  (chunks.map (fun c => c.1.length)).sum

/-- The body bytes of a list of chunks, in order. -/
def chunkBytes (chunks : List (List Nat × BodyReadResult)) : List Nat :=
  (chunks.map (fun c => c.1)).flatten

/-! ### Error responses (utils.go handleCancel / protocol RespondTunnelErr) -/

/-- An HTTP error response written to the end-user: status code, the
`Content-Length` header, the `Connection: close` header, and the body. -/
structure ErrorResponse where
  statusCode : Nat
  contentLength : Nat
  connectionClose : Bool
  body : String
  deriving Repr, DecidableEq

/-- `respondWith`: `Content-Length` set to the text's length,
`Connection: close`, the given status code, and the text as body. -/
def respondWith (respText : String) (statusCode : Nat) : ErrorResponse :=
  ⟨statusCode, respText.length, true, respText⟩

/-- `handleCancel`: the switch mapping a cancellation cause to the end-user
response; `context.Canceled` and only it produces no response. -/
def handleCancel : CancelCause → Option ErrorResponse
  | .contextCanceled => none
  | .readBodyChunkTimeout => some (respondWith READ_BODY_CHUNK_TIMEOUT_ERR_TEXT 408)
  | .readBodyChunk => some (respondWith READ_BODY_CHUNK_ERR_TEXT 400)
  | .clientDisconnected => some (respondWith CLIENT_DISCONNECT_ERR_TEXT 400)
  | .readRespBody => some (respondWith READ_RESP_BODY_ERR_TEXT 500)
  | .maxReqBodySize => some (respondWith MAX_REQ_BODY_SIZE_ERR_TEXT 413)
  | .failedToForwardToMmarClient =>
      some (respondWith FAILED_TO_FORWARD_TO_MMAR_CLIENT_ERR_TEXT 503)
  | .failedToReadRespFromMmarClient =>
      some (respondWith FAILED_TO_READ_RESP_FROM_MMAR_CLIENT_ERR_TEXT 503)

/-- `TunnelErrState`: the canned body text for a tunnel error state, with
the fallback text for unknown states. -/
def TunnelErrState (errState : Nat) : String :=
  if errState = CLIENT_DISCONNECT then CLIENT_DISCONNECT_ERR_TEXT
  else if errState = LOCALHOST_NOT_RUNNING then LOCALHOST_NOT_RUNNING_ERR_TEXT
  else if errState = DEST_REQUEST_TIMEDOUT then DEST_REQUEST_TIMEDOUT_ERR_TEXT
  else if errState = INVALID_RESP_FROM_DEST then READ_RESP_BODY_ERR_TEXT
  else "An error occured while attempting to tunnel."

/-- `RespondTunnelErr`: `Content-Length`, `Connection: close`, status
`200 OK`, and the canned error text as body. -/
def RespondTunnelErr (errState : Nat) : ErrorResponse :=
  ⟨200, (TunnelErrState errState).length, true, TunnelErrState errState⟩

/-! ### Client forwarder (src/internal/client/main.go, handleRequestMessage) -/

/-- The outcome of `fwdClient.Do(req)`, classified the way the Go error
checks distinguish it: success with the bytes `resp.Write` serializes, or
one of the matched error kinds, or any other failure. -/
inductive ForwardResult where
  | success (respBytes : List Nat)
  | connRefused
  | eofClosed
  | unexpectedEOF
  | deadlineExceeded
  | otherFailure
  deriving Repr, DecidableEq

/-- The message `handleRequestMessage` sends back for one REQUEST frame:
split the 4-byte request id off the frame payload (returning without
sending if the payload is shorter), then classify the forward outcome.
Parsing the request itself and the local re-issue are abstracted into
`fwd`. -/
def handleRequestMessage (msgData : List Nat) (fwd : ForwardResult) :
    Option TunnelMessage :=
  if msgData.length < REQUEST_ID_BUFF_SIZE then none
  else
    let reqIdBuff := msgData.take REQUEST_ID_BUFF_SIZE
    match fwd with
    | .connRefused => some ⟨LOCALHOST_NOT_RUNNING, reqIdBuff⟩
    | .eofClosed => some ⟨LOCALHOST_NOT_RUNNING, reqIdBuff⟩
    | .unexpectedEOF => some ⟨LOCALHOST_NOT_RUNNING, reqIdBuff⟩
    | .deadlineExceeded => some ⟨DEST_REQUEST_TIMEDOUT, reqIdBuff⟩
    | .otherFailure => some ⟨INVALID_RESP_FROM_DEST, reqIdBuff⟩
    | .success respBytes => some ⟨RESPONSE, reqIdBuff ++ respBytes⟩

/-! ## Frame codec lemmas -/

theorem mem_natDecimalBytes {n b : Nat} (hb : b ∈ natDecimalBytes n) :
    48 ≤ b ∧ b ≤ 57 := by
  unfold natDecimalBytes at hb
  split at hb
  · simp at hb
    omega
  · simp only [List.mem_map, List.mem_reverse] at hb
    obtain ⟨d, hd, rfl⟩ := hb
    have : d < 10 := Nat.digits_lt_base (by norm_num) hd
    omega

theorem natDecimalBytes_ne_nil (n : Nat) : natDecimalBytes n ≠ [] := by
  unfold natDecimalBytes
  split
  · simp
  · simp [Nat.digits_ne_nil_iff_ne_zero, *]

theorem delim_not_mem_natDecimalBytes (n : Nat) :
    TUNNEL_MESSAGE_DATA_DELIMITER ∉ natDecimalBytes n := by
  intro h
  have := mem_natDecimalBytes h
  simp [TUNNEL_MESSAGE_DATA_DELIMITER] at this

theorem readBytesUntilDelim_of_not_mem {delim : Nat} {l₁ : List Nat}
    (h : delim ∉ l₁) (l₂ : List Nat) :
    readBytesUntilDelim delim (l₁ ++ delim :: l₂) = some (l₁ ++ [delim], l₂) := by
  induction l₁ with
  | nil => simp [readBytesUntilDelim]
  | cons b rest ih =>
      simp only [List.mem_cons, not_or] at h
      have hb : ¬b = delim := fun hbd => h.1 hbd.symm
      simp [readBytesUntilDelim, hb, ih h.2]

theorem decDigitsValAux_of_digits {l : List Nat}
    (h : ∀ b ∈ l, 48 ≤ b ∧ b ≤ 57) (acc : Nat) :
    decDigitsValAux acc l = some (l.foldl (fun a b => a * 10 + (b - 48)) acc) := by
  induction l generalizing acc with
  | nil => simp [decDigitsValAux]
  | cons b rest ih =>
      have hb := h b (by simp)
      simp [decDigitsValAux, hb, ih (fun x hx => h x (by simp [hx]))]

theorem foldl_reverse_digits (l : List Nat) (acc : Nat) :
    l.reverse.foldl (fun a d => a * 10 + d) acc =
      acc * 10 ^ l.length + Nat.ofDigits 10 l := by
  induction l generalizing acc with
  | nil => simp [Nat.ofDigits]
  | cons d rest ih =>
      simp only [List.reverse_cons, List.foldl_append, List.foldl_cons,
        List.foldl_nil, ih, Nat.ofDigits_cons, List.length_cons]
      ring

theorem foldl_natDecimalBytes (n : Nat) :
    (natDecimalBytes n).foldl (fun a b => a * 10 + (b - 48)) 0 = n := by
  unfold natDecimalBytes
  split
  · simp [*]
  · rw [List.foldl_map]
    have : ∀ (a d : Nat), a * 10 + (d + 48 - 48) = a * 10 + d := by intro a d; omega
    simp only [this]
    rw [foldl_reverse_digits]
    simp [Nat.ofDigits_digits]

theorem goAtoi_natDecimalBytes (n : Nat) :
    goAtoi (natDecimalBytes n) = some (n : Int) := by
  have hdig : ∀ b ∈ natDecimalBytes n, 48 ≤ b ∧ b ≤ 57 := fun _ h => mem_natDecimalBytes h
  obtain ⟨b, rest, hcons⟩ : ∃ b rest, natDecimalBytes n = b :: rest := by
    cases h : natDecimalBytes n with
    | nil => exact absurd h (natDecimalBytes_ne_nil n)
    | cons b rest => exact ⟨b, rest, rfl⟩
  have hb := hdig b (by simp [hcons])
  have h45 : b ≠ 45 := by omega
  have h43 : b ≠ 43 := by omega
  rw [hcons] at hdig ⊢
  have := decDigitsValAux_of_digits hdig 0
  have hfold := foldl_natDecimalBytes n
  rw [hcons] at hfold
  simp [goAtoi, h45, h43, this, hfold]

/-- Deserializing a well-formed frame followed by arbitrary further stream
bytes succeeds, yields the frame's type and payload, and consumes exactly
the frame. -/
theorem deserializeMessage_frame {t : Nat} (ht1 : REQUEST ≤ t)
    (ht2 : t ≤ INVALID_RESP_FROM_DEST) (data rest : List Nat) (tm : TunnelMessage) :
    deserializeMessage tm
        (([TUNNEL_MESSAGE_PROTOCOL_VERSION, t]
          ++ natDecimalBytes data.length
          ++ [TUNNEL_MESSAGE_DATA_DELIMITER]
          ++ data) ++ rest) = ⟨none, ⟨t, data⟩, rest⟩ := by
  have hsplit :
      ([TUNNEL_MESSAGE_PROTOCOL_VERSION, t]
          ++ natDecimalBytes data.length
          ++ [TUNNEL_MESSAGE_DATA_DELIMITER]
          ++ data) ++ rest
        = TUNNEL_MESSAGE_PROTOCOL_VERSION :: t ::
            (natDecimalBytes data.length
              ++ TUNNEL_MESSAGE_DATA_DELIMITER :: (data ++ rest)) := by
    simp
  have hdelim := readBytesUntilDelim_of_not_mem
    (delim_not_mem_natDecimalBytes data.length) (data ++ rest)
  have hvalid : isValidTunnelMessageType t = some t := by
    simp [isValidTunnelMessageType, ht1, ht2]
  have hread : readMessageData (data.length : Int) (data ++ rest) = .ok (data, rest) := by
    unfold readMessageData
    rw [if_neg (by omega)]
    rw [if_pos (by simp)]
    simp [List.take_left, List.drop_left]
  rw [hsplit]
  simp [deserializeMessage, readByte, hvalid, hdelim, hread,
    List.dropLast_concat, goAtoi_natDecimalBytes]

/-! ## C1 - C3, C10: frame codec claims -/

/-- C1 (framing round-trip): for every `TunnelMessage` whose type is one of
the enumerated kinds (`REQUEST` through `INVALID_RESP_FROM_DEST`) and whose
payload has length at most the maximum frame size, serialization succeeds
and deserializing the produced bytes (with any further stream bytes after
them) succeeds, yields an equal message, and consumes exactly the
serialized bytes. -/
theorem framing_roundtrip (m tm₀ : TunnelMessage) (rest : List Nat)
    (ht1 : REQUEST ≤ m.MsgType) (ht2 : m.MsgType ≤ INVALID_RESP_FROM_DEST)
    (hlen : m.MsgData.length ≤ MAX_REQ_BODY_SIZE + 16384) :
    ∃ bytes, serializeMessage m = .ok bytes ∧
      deserializeMessage tm₀ (bytes ++ rest) = ⟨none, m, rest⟩ := by
  refine ⟨[TUNNEL_MESSAGE_PROTOCOL_VERSION, m.MsgType]
            ++ natDecimalBytes m.MsgData.length
            ++ [TUNNEL_MESSAGE_DATA_DELIMITER]
            ++ m.MsgData, ?_, ?_⟩
  · have hvalid : isValidTunnelMessageType m.MsgType = some m.MsgType := by
      simp [isValidTunnelMessageType, ht1, ht2]
    simp [serializeMessage, hvalid]
  · rw [deserializeMessage_frame ht1 ht2 m.MsgData rest tm₀]

/-- Witness for C1 at a concrete message whose payload contains the
delimiter byte. -/
theorem framing_roundtrip_witness :
    ∃ bytes, serializeMessage ⟨REQUEST, [72, 10, 0]⟩ = .ok bytes ∧
      deserializeMessage ⟨0, []⟩ (bytes ++ [9, 9]) =
        ⟨none, ⟨REQUEST, [72, 10, 0]⟩, [9, 9]⟩ :=
  framing_roundtrip ⟨REQUEST, [72, 10, 0]⟩ ⟨0, []⟩ [9, 9]
    (by decide) (by decide) (by decide)

/-- C2 (frame length-field validation, failing input): a frame whose length
field is `MAX_REQ_BODY_SIZE + 16KiB + 1` — strictly above the bound the
spec requires `deserializeMessage` to reject with `MessageTooLarge` — is
instead accepted in full: the payload of that length is read and returned.
The deserializer of the source contains no upper bound on the parsed
length at all. -/
theorem deserializeMessage_accepts_oversize_frame :
    MAX_REQ_BODY_SIZE + 16384 <
        (List.replicate (MAX_REQ_BODY_SIZE + 16384 + 1) 0).length ∧
      deserializeMessage ⟨0, []⟩
          ([TUNNEL_MESSAGE_PROTOCOL_VERSION, REQUEST]
            ++ natDecimalBytes (MAX_REQ_BODY_SIZE + 16384 + 1)
            ++ [TUNNEL_MESSAGE_DATA_DELIMITER]
            ++ List.replicate (MAX_REQ_BODY_SIZE + 16384 + 1) 0)
        = ⟨none, ⟨REQUEST, List.replicate (MAX_REQ_BODY_SIZE + 16384 + 1) 0⟩, []⟩ := by
  constructor
  · rw [List.length_replicate]
    omega
  · have h := deserializeMessage_frame (t := REQUEST) (by decide) (by decide)
      (List.replicate (MAX_REQ_BODY_SIZE + 16384 + 1) 0) [] ⟨0, []⟩
    rw [List.length_replicate] at h
    simpa only [List.append_nil] using h

/-- C3 (protocol-version rejection): any input stream whose first byte
differs from the compiled protocol version constant is rejected with the
invalid-protocol-version error, the message is untouched, and exactly the
one mismatching byte has been consumed. -/
theorem protocol_version_rejection (tm : TunnelMessage) (b : Nat) (rest : List Nat)
    (hb : b ≠ TUNNEL_MESSAGE_PROTOCOL_VERSION) :
    deserializeMessage tm (b :: rest) =
      ⟨some .invalidMessageProtocolVersion, tm, rest⟩ := by
  unfold deserializeMessage
  simp [readByte, hb]

/-- Witness for C3 at first byte `5` (the compiled constant is `4`). -/
theorem protocol_version_rejection_witness :
    deserializeMessage ⟨0, []⟩ (5 :: [1, 2, 3]) =
      ⟨some .invalidMessageProtocolVersion, ⟨0, []⟩, [1, 2, 3]⟩ :=
  protocol_version_rejection ⟨0, []⟩ 5 [1, 2, 3] (by decide)

/-- C10 (deserialization atomicity): whenever `deserializeMessage` reports
an error — including the modelled runtime panic on a negative parsed
length — the message value is exactly the one passed in: `MsgType` and
`MsgData` are assigned only after every read step has succeeded, so a
partially decoded message is never observable. -/
theorem deserializeMessage_atomicity (tm : TunnelMessage) (input : List Nat)
    (e : CodecError) (h : (deserializeMessage tm input).error = some e) :
    (deserializeMessage tm input).msg = tm := by
  revert h
  unfold deserializeMessage
  repeat' split
  all_goals intro h
  all_goals first
    | rfl
    | simp_all

/-- Witness for C10 at a concrete failing input (wrong version byte). -/
theorem deserializeMessage_atomicity_witness :
    (deserializeMessage ⟨7, [1, 2]⟩ [9]).msg = ⟨7, [1, 2]⟩ :=
  deserializeMessage_atomicity ⟨7, [1, 2]⟩ [9] .invalidMessageProtocolVersion (by decide)

/-! ## Subdomain lemmas -/

theorem charset_props :
    ∀ c ∈ ID_CHARSET, isSubdomainChar c = true ∧ goToLowerChar c = c ∧ c ≠ '-' := by
  decide

theorem mem_charset_of_mem_generateRandomID {rand : Nat → Nat} {c : Char}
    (hc : c ∈ GenerateRandomID rand) : c ∈ ID_CHARSET := by
  simp only [GenerateRandomID, List.mem_map, List.mem_range] at hc
  obtain ⟨i, _, rfl⟩ := hc
  have hlt : rand i % ID_CHARSET.length < ID_CHARSET.length :=
    Nat.mod_lt _ (by decide)
  rw [List.getD_eq_getElem ID_CHARSET 'a' hlt]
  exact List.getElem_mem hlt

theorem length_generateRandomID (rand : Nat → Nat) :
    (GenerateRandomID rand).length = ID_LENGTH := by
  simp [GenerateRandomID]

theorem isValidSubdomainName_iff (name : Subdomain) :
    isValidSubdomainName name = true ↔
      (1 ≤ name.length ∧ name.length ≤ 63 ∧
        (∀ c ∈ name, isSubdomainChar c = true) ∧
        name.head? ≠ some '-' ∧ name.getLast? ≠ some '-' ∧
        name.map goToLowerChar ∉ reservedSubdomainsValidation) := by
  unfold isValidSubdomainName
  split_ifs with h1 h2 h3 h4 h5
  · simp only [Bool.false_eq_true, false_iff]
    intro hc
    rw [h1] at hc
    simp at hc
  · simp only [Bool.false_eq_true, false_iff]
    intro hc
    exact hc.2.2.2.2.2 (List.elem_iff.mp h2)
  · simp only [Bool.false_eq_true, false_iff]
    intro hc
    simp only [Bool.or_eq_true, decide_eq_true_eq] at h3
    omega
  · simp only [Bool.false_eq_true, false_iff]
    intro hc
    simp only [Bool.not_eq_true', List.all_eq_false] at h4
    obtain ⟨c, hcmem, hcbad⟩ := h4
    rw [hc.2.2.1 c hcmem] at hcbad
    simp at hcbad
  · simp only [Bool.false_eq_true, false_iff]
    intro hc
    simp only [Bool.or_eq_true, decide_eq_true_eq] at h5
    rcases h5 with h | h
    · exact hc.2.2.2.1 h
    · exact hc.2.2.2.2.1 h
  · simp only [true_iff]
    refine ⟨?_, ?_, ?_, ?_, ?_, ?_⟩
    · have : name.length ≠ 0 := fun h => h1 (List.length_eq_zero.mp h)
      omega
    · simp only [Bool.or_eq_true, decide_eq_true_eq, not_or] at h3
      omega
    · intro c hcmem
      simp only [Bool.not_eq_true', List.all_eq_false, not_exists, not_and] at h4
      rcases hbc : isSubdomainChar c with _ | _
      · exact absurd hbc (by simpa using h4 c hcmem)
      · rfl
    · intro h
      exact h5 (by simp [h])
    · intro h
      exact h5 (by simp [h])
    · intro h
      exact h2 (List.elem_iff.mpr h)

theorem isValidSubdomainName_generateRandomID (rand : Nat → Nat) :
    isValidSubdomainName (GenerateRandomID rand) = true := by
  rw [isValidSubdomainName_iff]
  have hlen := length_generateRandomID rand
  have hchar : ∀ c ∈ GenerateRandomID rand, isSubdomainChar c = true ∧
      goToLowerChar c = c ∧ c ≠ '-' :=
    fun c hc => charset_props c (mem_charset_of_mem_generateRandomID hc)
  refine ⟨by rw [hlen]; decide, by rw [hlen]; decide, fun c hc => (hchar c hc).1, ?_, ?_, ?_⟩
  · intro h
    exact (hchar _ (List.mem_of_mem_head? h)).2.2 rfl
  · intro h
    exact (hchar _ (List.mem_of_mem_getLast? h)).2.2 rfl
  · intro h
    have hmap : (GenerateRandomID rand).map goToLowerChar = GenerateRandomID rand :=
      calc (GenerateRandomID rand).map goToLowerChar
          = (GenerateRandomID rand).map id :=
            List.map_congr_left (fun c hc => (hchar c hc).2.1)
        _ = GenerateRandomID rand := List.map_id _
    rw [hmap] at h
    have hlens : ((GenerateRandomID rand).length = 5 ∨ (GenerateRandomID rand).length = 3) := by
      simp only [reservedSubdomainsValidation, List.mem_cons, List.not_mem_nil, or_false] at h
      rcases h with h | h | h | h | h <;> rw [h] <;> simp
    rw [hlen] at hlens
    revert hlens
    decide

theorem generateUniqueSubdomainLoop_spec {exists0 : Bool}
    {stream : Nat → Nat → Nat} :
    ∀ (fuel : Nat) (g : Subdomain) (k : Nat) (id : Subdomain),
      generateUniqueSubdomainLoop exists0 stream fuel g k = some id →
        reservedSubdomainsGeneration.contains id = false ∧
        (id = g ∨ ∃ j, id = GenerateRandomID (stream j)) := by
  intro fuel
  induction fuel with
  | zero =>
      intro g k id h
      unfold generateUniqueSubdomainLoop at h
      split at h
      · simp at h
      · rename_i hcond
        obtain rfl : g = id := Option.some.inj h
        simp only [Bool.or_eq_true, not_or, Bool.not_eq_true] at hcond
        exact ⟨hcond.2, Or.inl rfl⟩
  | succ fuel' ih =>
      intro g k id h
      unfold generateUniqueSubdomainLoop at h
      split at h
      · obtain ⟨hres, hor⟩ := ih (GenerateRandomID (stream k)) (k + 1) id h
        refine ⟨hres, Or.inr ?_⟩
        rcases hor with h' | ⟨j, hj⟩
        · exact ⟨k, h'⟩
        · exact ⟨j, hj⟩
      · rename_i hcond
        obtain rfl : g = id := Option.some.inj h
        simp only [Bool.or_eq_true, not_or, Bool.not_eq_true] at hcond
        exact ⟨hcond.2, Or.inl rfl⟩

/-! ## C4: subdomain validity -/

/-- C4 (subdomain validity): `isValidSubdomainName name` is true exactly
when `name` has length 1-63, contains only characters in `[A-Za-z0-9-]`,
neither starts nor ends with `'-'`, and its lowercased form is not in the
validation reserved set; and every id that `GenerateUniqueSubdomain`
issues (6 charset characters, redrawn while the candidate lies in the
generation reserved set; the bound-subdomain lookup of the Go for-init
runs only once, against the initial empty candidate) validates. -/
theorem subdomain_validity :
    (∀ name : Subdomain,
        isValidSubdomainName name = true ↔
          (1 ≤ name.length ∧ name.length ≤ 63 ∧
            (∀ c ∈ name, isSubdomainChar c = true) ∧
            name.head? ≠ some '-' ∧ name.getLast? ≠ some '-' ∧
            name.map goToLowerChar ∉ reservedSubdomainsValidation))
    ∧ (∀ (clients : List Subdomain) (stream : Nat → Nat → Nat) (fuel : Nat)
          (id : Subdomain),
        GenerateUniqueSubdomain clients stream fuel = some id →
          isValidSubdomainName id = true) := by
  refine ⟨isValidSubdomainName_iff, ?_⟩
  intro clients stream fuel id h
  unfold GenerateUniqueSubdomain at h
  obtain ⟨hres, hor⟩ :=
    generateUniqueSubdomainLoop_spec fuel [] 0 id h
  rcases hor with rfl | ⟨j, rfl⟩
  · exact absurd hres (by decide)
  · exact isValidSubdomainName_generateRandomID (stream j)

/-- Witness for C4: the iff at the concrete name `"my-app"`, and the
generated id of a concrete run (the all-zero random source yields
`"aaaaaa"`), both validating. -/
theorem subdomain_validity_witness :
    isValidSubdomainName ['m', 'y', '-', 'a', 'p', 'p'] = true ∧
      isValidSubdomainName ['a', 'a', 'a', 'a', 'a', 'a'] = true := by
  constructor
  · exact (subdomain_validity.1 ['m', 'y', '-', 'a', 'p', 'p']).mpr (by decide)
  · exact subdomain_validity.2 [] (fun _ _ => 0) 1 ['a', 'a', 'a', 'a', 'a', 'a'] (by decide)

/-! ## Registry lemmas -/

theorem lookupIP_setIP_self (l : List (PeerIP × List Subdomain)) (ip : PeerIP)
    (v : List Subdomain) : lookupIP (setIP l ip v) ip = some v := by
  induction l with
  | nil => simp [setIP, lookupIP]
  | cons kv rest ih =>
      obtain ⟨k, w⟩ := kv
      by_cases hk : k = ip
      · simp [setIP, lookupIP, hk]
      · simp [setIP, lookupIP, hk, ih]

theorem lookupIP_setIP_ne (l : List (PeerIP × List Subdomain)) (ip ip' : PeerIP)
    (v : List Subdomain) (hne : ip' ≠ ip) :
    lookupIP (setIP l ip v) ip' = lookupIP l ip' := by
  induction l with
  | nil =>
      have h2 : ¬ip = ip' := fun h => hne h.symm
      simp [setIP, lookupIP, h2]
  | cons kv rest ih =>
      obtain ⟨k, w⟩ := kv
      by_cases hk : k = ip
      · subst hk
        have h2 : ¬k = ip' := fun h => hne h.symm
        simp [setIP, lookupIP, h2]
      · simp [setIP, lookupIP, hk, ih]

theorem finishCreate_at_limit (ms : MmarServerState) (ip : PeerIP) (id : Subdomain)
    (h : MAX_TUNNELS_PER_IP ≤ ((lookupIP ms.tunnelsPerIP ip).getD []).length) :
    finishCreate ms ip id = (.clientTunnelLimit, ms) := by
  unfold finishCreate TunnelLimitedIP
  cases hl : lookupIP ms.tunnelsPerIP ip with
  | none =>
      rw [hl] at h
      simp [MAX_TUNNELS_PER_IP] at h
  | some ts =>
      rw [hl] at h
      simp only [Option.getD_some] at h
      simp [ge_iff_le, h]

theorem finishCreate_preserves (ms : MmarServerState) (ip : PeerIP) (id : Subdomain)
    (hinv : perIPWithinLimit ms) : perIPWithinLimit (finishCreate ms ip id).2 := by
  unfold finishCreate TunnelLimitedIP
  cases hl : lookupIP ms.tunnelsPerIP ip with
  | none =>
      simp only []
      intro ip'
      by_cases hip : ip' = ip
      · subst hip
        rw [lookupIP_setIP_self, lookupIP_setIP_self]
        simp [MAX_TUNNELS_PER_IP]
      · rw [lookupIP_setIP_ne _ _ _ _ hip, lookupIP_setIP_ne _ _ _ _ hip]
        exact hinv ip'
  | some ts =>
      rcases hts : decide (ts.length ≥ MAX_TUNNELS_PER_IP) with _ | _
      · simp only [hts]
        intro ip'
        by_cases hip : ip' = ip
        · subst hip
          rw [lookupIP_setIP_self, hl]
          have hlt : ts.length < MAX_TUNNELS_PER_IP := by
            have := of_decide_eq_false hts
            omega
          simp
          omega
        · rw [lookupIP_setIP_ne _ _ _ _ hip]
          exact hinv ip'
      · simp only [hts]
        exact hinv

theorem newClientTunnel_preserves (ms : MmarServerState) (ip : PeerIP)
    (sub : Subdomain) (stream : Nat → Nat → Nat) (fuel : Nat)
    (out : CreateOutcome) (ms' : MmarServerState)
    (hinv : perIPWithinLimit ms)
    (h : newClientTunnel ms ip sub stream fuel = some (out, ms')) :
    perIPWithinLimit ms' := by
  unfold newClientTunnel at h
  split at h
  · split at h
    · obtain ⟨rfl, rfl⟩ : out = .invalidSubdomainName ∧ ms' = ms := by
        have := Option.some.inj h
        exact ⟨congrArg Prod.fst this.symm, congrArg Prod.snd this.symm⟩
      exact hinv
    · split at h
      · obtain ⟨rfl, rfl⟩ : out = .subdomainAlreadyTaken ∧ ms' = ms := by
          have := Option.some.inj h
          exact ⟨congrArg Prod.fst this.symm, congrArg Prod.snd this.symm⟩
        exact hinv
      · have hms' : ms' = (finishCreate ms ip sub).2 := by
          have := Option.some.inj h
          exact congrArg Prod.snd this.symm
        rw [hms']
        exact finishCreate_preserves ms ip sub hinv
  · split at h
    · exact absurd h (by simp)
    · rename_i g hg
      have hms' : ms' = (finishCreate ms ip g).2 := by
        have := Option.some.inj h
        exact congrArg Prod.snd this.symm
      rw [hms']
      exact finishCreate_preserves ms ip g hinv

theorem runCreateAttempts_preserves :
    ∀ (attempts : List CreateAttempt) (ms : MmarServerState),
      perIPWithinLimit ms → perIPWithinLimit (runCreateAttempts ms attempts) := by
  intro attempts
  induction attempts with
  | nil => intro ms hinv; exact hinv
  | cons a rest ih =>
      intro ms hinv
      unfold runCreateAttempts
      cases hres : newClientTunnel ms a.ip a.subdomain a.stream a.fuel with
      | none => exact ih ms hinv
      | some p =>
          exact ih p.2 (newClientTunnel_preserves ms a.ip a.subdomain a.stream a.fuel
            p.1 p.2 hinv hres)

/-! ## C5: per-IP cap -/

/-- C5 counterexample: a registry whose peer IP `"ip"` already holds
`MAX_TUNNELS_PER_IP` bound subdomains, receiving a creation attempt with
the invalid custom name `"-x"` from that same IP.  The claim says any
attempt arriving at the limit is sent `CLIENT_TUNNEL_LIMIT`; the code
validates the name first and answers `INVALID_SUBDOMAIN_NAME` instead. -/
theorem per_ip_cap_counterexample :
    MAX_TUNNELS_PER_IP ≤
      ((lookupIP
          (⟨[['s', '1'], ['s', '2'], ['s', '3'], ['s', '4'], ['s', '5']],
            [(['i', 'p'],
              [['s', '1'], ['s', '2'], ['s', '3'], ['s', '4'], ['s', '5']])]⟩ :
              MmarServerState).tunnelsPerIP ['i', 'p']).getD []).length ∧
    newClientTunnel
        ⟨[['s', '1'], ['s', '2'], ['s', '3'], ['s', '4'], ['s', '5']],
          [(['i', 'p'],
            [['s', '1'], ['s', '2'], ['s', '3'], ['s', '4'], ['s', '5']])]⟩
        ['i', 'p'] ['-', 'x'] (fun _ _ => 0) 0
      = some (.invalidSubdomainName,
          ⟨[['s', '1'], ['s', '2'], ['s', '3'], ['s', '4'], ['s', '5']],
            [(['i', 'p'],
              [['s', '1'], ['s', '2'], ['s', '3'], ['s', '4'], ['s', '5']])]⟩) ∧
    CreateOutcome.invalidSubdomainName ≠ CreateOutcome.clientTunnelLimit := by
  refine ⟨by decide, by decide, by decide⟩

/-- C5 (amended): over any sequence of tunnel-creation attempts from the
empty registry, no IP's recorded subdomain list ever exceeds
`MAX_TUNNELS_PER_IP`; and an attempt arriving while its IP is at the limit
whose requested name passes the preceding checks (auto-assign, or a valid
name that is not taken) is answered `CLIENT_TUNNEL_LIMIT` with the
registry left completely unchanged.  (Attempts failing name validation at
the limit are answered `INVALID_SUBDOMAIN_NAME` / `SUBDOMAIN_ALREADY_TAKEN`
instead — see the counterexample — and likewise add no entry.) -/
theorem per_ip_cap :
    (∀ attempts : List CreateAttempt,
        perIPWithinLimit (runCreateAttempts emptyServerState attempts))
    ∧ (∀ (ms : MmarServerState) (ip : PeerIP) (sub : Subdomain)
          (stream : Nat → Nat → Nat) (fuel : Nat)
          (out : CreateOutcome) (ms' : MmarServerState),
        MAX_TUNNELS_PER_IP ≤ ((lookupIP ms.tunnelsPerIP ip).getD []).length →
        (sub = [] ∨ (isValidSubdomainName sub = true ∧ ms.clients.contains sub = false)) →
        newClientTunnel ms ip sub stream fuel = some (out, ms') →
        out = .clientTunnelLimit ∧ ms' = ms) := by
  constructor
  · intro attempts
    refine runCreateAttempts_preserves attempts emptyServerState ?_
    intro ip
    simp [emptyServerState, lookupIP, MAX_TUNNELS_PER_IP]
  · intro ms ip sub stream fuel out ms' hlimit hname h
    unfold newClientTunnel at h
    split at h
    · rcases hname with rfl | ⟨hvalid, hfree⟩
      · simp at *
      · rw [hvalid] at h
        simp only [Bool.not_true, Bool.false_eq_true, if_false] at h
        rw [hfree] at h
        simp only [Bool.false_eq_true, if_false] at h
        rw [finishCreate_at_limit ms ip sub hlimit] at h
        have := Option.some.inj h
        exact ⟨congrArg Prod.fst this.symm, congrArg Prod.snd this.symm⟩
    · split at h
      · exact absurd h (by simp)
      · rename_i g hg
        rw [finishCreate_at_limit ms ip g hlimit] at h
        have := Option.some.inj h
        exact ⟨congrArg Prod.fst this.symm, congrArg Prod.snd this.symm⟩

/-- Witness for C5 at a concrete at-limit registry and the valid free name
`"ok"`: the hypotheses — at-limit, valid-and-free, and the attempt's
concrete outcome — are discharged by evaluation, and the theorem yields
the `CLIENT_TUNNEL_LIMIT` outcome with the registry unchanged. -/
theorem per_ip_cap_witness :
    CreateOutcome.clientTunnelLimit = CreateOutcome.clientTunnelLimit ∧
      (⟨[['s', '1'], ['s', '2'], ['s', '3'], ['s', '4'], ['s', '5']],
          [(['i', 'p'],
            [['s', '1'], ['s', '2'], ['s', '3'], ['s', '4'], ['s', '5']])]⟩ :
          MmarServerState)
        = ⟨[['s', '1'], ['s', '2'], ['s', '3'], ['s', '4'], ['s', '5']],
            [(['i', 'p'],
              [['s', '1'], ['s', '2'], ['s', '3'], ['s', '4'], ['s', '5']])]⟩ :=
  per_ip_cap.2
    ⟨[['s', '1'], ['s', '2'], ['s', '3'], ['s', '4'], ['s', '5']],
      [(['i', 'p'], [['s', '1'], ['s', '2'], ['s', '3'], ['s', '4'], ['s', '5']])]⟩
    ['i', 'p'] ['o', 'k'] (fun _ _ => 0) 0 _ _
    (by decide) (Or.inr ⟨by decide, by decide⟩) (by decide)

/-! ## C6: request-id uniqueness -/

/-- C6 (failing input): with inflight ids `{3}` and `crypto/rand` drawing
`3` first, `GenerateUniqueRequestID` issues `3` — an id already present in
the tunnel's inflight map at the moment of issue.  The Go for-clause init
`_, exists := ct.inflightRequests.Load(generatedReqId)` runs once, against
the zero candidate, and `exists` is never refreshed, so a colliding fresh
draw is never re-checked against the map: the first non-zero draw is
issued whether or not it is inflight, contradicting the claim (and the
spec's "collisions are retried at generation"). -/
theorem request_id_collision_issued :
    GenerateUniqueRequestID [3] (fun _ => 3) 1 = some 3 ∧
      ([3] : List Nat).contains 3 = true ∧ (3 : Nat) ≠ 0 :=
  ⟨by decide, by decide, by decide⟩

/-! ## Request serializer lemmas -/

theorem chunkLens_cons (d : List Nat × BodyReadResult)
    (rest : List (List Nat × BodyReadResult)) :
    chunkLens (d :: rest) = d.1.length + chunkLens rest := by
  simp [chunkLens]

theorem chunkBytes_cons (d : List Nat × BodyReadResult)
    (rest : List (List Nat × BodyReadResult)) :
    chunkBytes (d :: rest) = d.1 ++ chunkBytes rest := by
  simp [chunkBytes]

theorem length_chunkBytes (chunks : List (List Nat × BodyReadResult)) :
    (chunkBytes chunks).length = chunkLens chunks := by
  induction chunks with
  | nil => simp [chunkBytes, chunkLens]
  | cons c rest ih => simp [chunkBytes_cons, chunkLens_cons, ih]

theorem serializeRequestLoop_skip_success :
    ∀ (pre : List (List Nat × BodyReadResult)),
      (∀ c ∈ pre, c.2 = BodyReadResult.success) →
      ∀ (l : List (List Nat × BodyReadResult)) (cl : Nat) (acc : List Nat),
        cl + chunkLens pre ≤ MAX_REQ_BODY_SIZE →
        serializeRequestLoop (pre ++ l) cl acc =
          serializeRequestLoop l (cl + chunkLens pre) (acc ++ chunkBytes pre) := by
  intro pre
  induction pre with
  | nil =>
      intro _ l cl acc _
      simp [chunkLens, chunkBytes]
  | cons c pre' ih =>
      intro hok l cl acc hbound
      obtain ⟨d, res⟩ := c
      have hres : res = BodyReadResult.success := hok (d, res) (by simp)
      subst hres
      rw [chunkLens_cons] at hbound ⊢
      rw [chunkBytes_cons]
      have hbound' : cl + (d.length + chunkLens pre') ≤ MAX_REQ_BODY_SIZE := by
        simpa using hbound
      have hstep : ¬(cl + d.length > MAX_REQ_BODY_SIZE) := by omega
      simp only [List.cons_append, serializeRequestLoop, hstep, if_false, List.append_eq]
      rw [ih (fun c hc => hok c (by simp [hc])) l (cl + d.length) (acc ++ d) (by omega)]
      rw [Nat.add_assoc, List.append_assoc]

/-! ## C7: body-read policy of the request serializer -/

/-- C7 (body-read policy): over any body whose reads so far all succeeded
(each chunk read into the 2048-byte buffer), (a) a chunk that pushes the
accumulated count over `MAX_REQ_BODY_SIZE` — whatever its own read result —
cancels with the max-body-size cause, producing no serialized output;
(b) an end-of-stream chunk within the limit ends the loop normally with
the `Content-Length` value equal to the total number of body bytes
actually read, which is the length of the serialized body; (c) a failing
read within the limit cancels with the body-chunk-read cause. -/
theorem body_read_policy (pre : List (List Nat × BodyReadResult)) (d : List Nat)
    (rest : List (List Nat × BodyReadResult))
    (hok : ∀ c ∈ pre, c.2 = BodyReadResult.success)
    (hbufPre : ∀ c ∈ pre, c.1.length ≤ bufferSize)
    (hbufD : d.length ≤ bufferSize) :
    (MAX_REQ_BODY_SIZE < chunkLens pre + d.length →
        chunkLens pre ≤ MAX_REQ_BODY_SIZE →
        ∀ res, serializeRequest (pre ++ (d, res) :: rest) =
          some (.error .maxReqBodySize))
    ∧ (chunkLens pre + d.length ≤ MAX_REQ_BODY_SIZE →
        serializeRequest (pre ++ (d, .endOfFile) :: rest) =
            some (.ok ⟨chunkLens pre + d.length, chunkBytes pre ++ d⟩) ∧
          (chunkBytes pre ++ d).length = chunkLens pre + d.length)
    ∧ (chunkLens pre + d.length ≤ MAX_REQ_BODY_SIZE →
        serializeRequest (pre ++ (d, .readFailure) :: rest) =
          some (.error .readBodyChunk)) := by
  refine ⟨?_, ?_, ?_⟩
  · intro hover hpre res
    unfold serializeRequest
    rw [serializeRequestLoop_skip_success pre hok ((d, res) :: rest) 0 [] (by omega)]
    have hgt : chunkLens pre + d.length > MAX_REQ_BODY_SIZE := by omega
    simp [serializeRequestLoop, hgt, Except.map]
  · intro hle
    constructor
    · unfold serializeRequest
      rw [serializeRequestLoop_skip_success pre hok ((d, .endOfFile) :: rest) 0 [] (by omega)]
      have hngt : ¬(chunkLens pre + d.length > MAX_REQ_BODY_SIZE) := by omega
      simp [serializeRequestLoop, hngt, Except.map]
    · rw [List.length_append, length_chunkBytes]
  · intro hle
    unfold serializeRequest
    rw [serializeRequestLoop_skip_success pre hok ((d, .readFailure) :: rest) 0 [] (by omega)]
    have hngt : ¬(chunkLens pre + d.length > MAX_REQ_BODY_SIZE) := by omega
    simp [serializeRequestLoop, hngt, Except.map]

/-- Witness for C7 at a concrete body: one successful 2-byte chunk followed
by a 1-byte end-of-stream chunk serializes with `Content-Length` 3 and body
`[1, 2, 3]`. -/
theorem body_read_policy_witness :
    serializeRequest [([1, 2], .success), ([3], .endOfFile)] =
        some (.ok ⟨chunkLens [([1, 2], BodyReadResult.success)] + [3].length,
          chunkBytes [([1, 2], BodyReadResult.success)] ++ [3]⟩) ∧
      (chunkBytes [([1, 2], BodyReadResult.success)] ++ [3]).length =
        chunkLens [([1, 2], BodyReadResult.success)] + [3].length :=
  (body_read_policy [([1, 2], .success)] [3] []
      (by decide) (by decide) (by decide)).2.1 (by decide)

/-! ## C8: cancellation-cause to HTTP status mapping -/

/-- C8 counterexample: the client-disconnected cancellation cause, delivered
to the top-level handler, is answered with HTTP 400 — not the 200 OK the
claim states for it. -/
theorem cancel_status_mapping_counterexample :
    handleCancel .clientDisconnected =
        some ⟨400, CLIENT_DISCONNECT_ERR_TEXT.length, true, CLIENT_DISCONNECT_ERR_TEXT⟩ ∧
      (400 : Nat) ≠ 200 :=
  ⟨rfl, by decide⟩

/-- C8 (amended): the top-level handler maps the body chunk-read timeout to
408, the body chunk-read error and the client-disconnected cause both to
400, the unreadable destination response body to 500, the body-size excess
to 413, and the two mmar-client forwarding failures to 503 — each response
carrying `Connection: close` and the cause's error text as body with its
length as `Content-Length`; a plain context cancellation produces no
response; and the tunnel-not-bound response is 200 OK with
`Connection: close` and the client-disconnect canned text. -/
theorem cancel_status_mapping :
    handleCancel .readBodyChunkTimeout =
        some ⟨408, READ_BODY_CHUNK_TIMEOUT_ERR_TEXT.length, true,
          READ_BODY_CHUNK_TIMEOUT_ERR_TEXT⟩ ∧
      handleCancel .readBodyChunk =
        some ⟨400, READ_BODY_CHUNK_ERR_TEXT.length, true, READ_BODY_CHUNK_ERR_TEXT⟩ ∧
      handleCancel .clientDisconnected =
        some ⟨400, CLIENT_DISCONNECT_ERR_TEXT.length, true, CLIENT_DISCONNECT_ERR_TEXT⟩ ∧
      handleCancel .readRespBody =
        some ⟨500, READ_RESP_BODY_ERR_TEXT.length, true, READ_RESP_BODY_ERR_TEXT⟩ ∧
      handleCancel .maxReqBodySize =
        some ⟨413, MAX_REQ_BODY_SIZE_ERR_TEXT.length, true, MAX_REQ_BODY_SIZE_ERR_TEXT⟩ ∧
      handleCancel .failedToForwardToMmarClient =
        some ⟨503, FAILED_TO_FORWARD_TO_MMAR_CLIENT_ERR_TEXT.length, true,
          FAILED_TO_FORWARD_TO_MMAR_CLIENT_ERR_TEXT⟩ ∧
      handleCancel .failedToReadRespFromMmarClient =
        some ⟨503, FAILED_TO_READ_RESP_FROM_MMAR_CLIENT_ERR_TEXT.length, true,
          FAILED_TO_READ_RESP_FROM_MMAR_CLIENT_ERR_TEXT⟩ ∧
      handleCancel .contextCanceled = none ∧
      RespondTunnelErr CLIENT_DISCONNECT =
        ⟨200, CLIENT_DISCONNECT_ERR_TEXT.length, true, CLIENT_DISCONNECT_ERR_TEXT⟩ :=
  ⟨rfl, rfl, rfl, rfl, rfl, rfl, rfl, rfl, rfl⟩

/-! ## C9: client forwarder outcome classification -/

/-- C9 (forwarder classification): for every REQUEST frame whose payload
holds at least the 4-byte request id, a local call ending in connection
refused, EOF or unexpected EOF sends `LOCALHOST_NOT_RUNNING` with exactly
the 4-byte request id as payload; deadline exceeded sends
`DEST_REQUEST_TIMEDOUT` with that id; any other failure sends
`INVALID_RESP_FROM_DEST` with that id; success sends `RESPONSE` whose
payload is the id followed by the serialized HTTP response bytes. -/
theorem client_forward_classification (msgData respBytes : List Nat)
    (hlen : REQUEST_ID_BUFF_SIZE ≤ msgData.length) :
    (msgData.take REQUEST_ID_BUFF_SIZE).length = REQUEST_ID_BUFF_SIZE ∧
      handleRequestMessage msgData .connRefused =
        some ⟨LOCALHOST_NOT_RUNNING, msgData.take REQUEST_ID_BUFF_SIZE⟩ ∧
      handleRequestMessage msgData .eofClosed =
        some ⟨LOCALHOST_NOT_RUNNING, msgData.take REQUEST_ID_BUFF_SIZE⟩ ∧
      handleRequestMessage msgData .unexpectedEOF =
        some ⟨LOCALHOST_NOT_RUNNING, msgData.take REQUEST_ID_BUFF_SIZE⟩ ∧
      handleRequestMessage msgData .deadlineExceeded =
        some ⟨DEST_REQUEST_TIMEDOUT, msgData.take REQUEST_ID_BUFF_SIZE⟩ ∧
      handleRequestMessage msgData .otherFailure =
        some ⟨INVALID_RESP_FROM_DEST, msgData.take REQUEST_ID_BUFF_SIZE⟩ ∧
      handleRequestMessage msgData (.success respBytes) =
        some ⟨RESPONSE, msgData.take REQUEST_ID_BUFF_SIZE ++ respBytes⟩ := by
  have hnlt : ¬(msgData.length < REQUEST_ID_BUFF_SIZE) := Nat.not_lt.mpr hlen
  refine ⟨?_, ?_, ?_, ?_, ?_, ?_, ?_⟩
  · rw [List.length_take]
    omega
  all_goals simp [handleRequestMessage, hnlt]

/-- Witness for C9 at the concrete frame payload `[1, 2, 3, 4, 9]` and
response bytes `[7]`. -/
theorem client_forward_classification_witness :
    (([1, 2, 3, 4, 9] : List Nat).take REQUEST_ID_BUFF_SIZE).length =
        REQUEST_ID_BUFF_SIZE ∧
      handleRequestMessage [1, 2, 3, 4, 9] .connRefused =
        some ⟨LOCALHOST_NOT_RUNNING, ([1, 2, 3, 4, 9] : List Nat).take REQUEST_ID_BUFF_SIZE⟩ ∧
      handleRequestMessage [1, 2, 3, 4, 9] .eofClosed =
        some ⟨LOCALHOST_NOT_RUNNING, ([1, 2, 3, 4, 9] : List Nat).take REQUEST_ID_BUFF_SIZE⟩ ∧
      handleRequestMessage [1, 2, 3, 4, 9] .unexpectedEOF =
        some ⟨LOCALHOST_NOT_RUNNING, ([1, 2, 3, 4, 9] : List Nat).take REQUEST_ID_BUFF_SIZE⟩ ∧
      handleRequestMessage [1, 2, 3, 4, 9] .deadlineExceeded =
        some ⟨DEST_REQUEST_TIMEDOUT, ([1, 2, 3, 4, 9] : List Nat).take REQUEST_ID_BUFF_SIZE⟩ ∧
      handleRequestMessage [1, 2, 3, 4, 9] .otherFailure =
        some ⟨INVALID_RESP_FROM_DEST, ([1, 2, 3, 4, 9] : List Nat).take REQUEST_ID_BUFF_SIZE⟩ ∧
      handleRequestMessage [1, 2, 3, 4, 9] (.success [7]) =
        some ⟨RESPONSE, ([1, 2, 3, 4, 9] : List Nat).take REQUEST_ID_BUFF_SIZE ++ [7]⟩ :=
  client_forward_classification [1, 2, 3, 4, 9] [7] (by decide)

end Mmar
